import Mathlib

/-!
Verification of the version-compatibility resolution core of the
`ore-monitor` command-line client (workspace crates `ore_monitor` and
`ore_monitor_common`).

The Rust sources are shallowly embedded: each Rust function becomes a
computable Lean function over the same data shapes, with `Option` standing
for Rust's `Option`/fallible `Result` values.  Machine integers (`u32`)
are embedded as `Nat` with the parse-time range check made explicit.
-/

namespace OreMonitor

/-! ### Shared string helpers

These model the Rust standard-library string operations used by the
embedded functions (`str::split_once`, `str::parse::<u32>`,
`str::starts_with`, `str::contains`, `str::replace`).  Strings are
processed through their character lists. -/

/-- Rust `str::split_once(c)` on a character list: split at the first
occurrence of `c`, returning the parts before and after it. -/
def splitOnceChar (c : Char) : List Char → Option (List Char × List Char)
  | [] => none
  | x :: xs =>
    if x = c then some ([], xs)
    else (splitOnceChar c xs).map (fun p => (x :: p.1, p.2))

/-- Rust `str::split_once(c)` lifted to `String`. -/
def splitOnce (c : Char) (s : String) : Option (String × String) :=
  (splitOnceChar c s.data).map (fun p => (⟨p.1⟩, ⟨p.2⟩))

/-- Decimal value of a digit run. -/
def digsToNat (cs : List Char) : Nat :=
  cs.foldl (fun a c => a * 10 + (c.toNat - 48)) 0

/-- Rust `str::parse::<u32>()`: an optional leading `+`, then a nonempty
run of ASCII digits whose value fits in 32 bits; anything else fails. -/
def parseU32 (s : String) : Option Nat :=
  let cs := match s.data with
    | '+' :: rest => rest
    | l => l
  if cs ≠ [] ∧ cs.all (fun c => c.isDigit) then
    if digsToNat cs < 4294967296 then some (digsToNat cs) else none
  else none

/-- All suffixes of a character list (used for substring search). -/
def suffixes : List Char → List (List Char)
  | [] => [[]]
  | c :: cs => (c :: cs) :: suffixes cs

/-- Rust `str::contains(needle)`: substring containment. -/
def strHasInfix (needle s : String) : Bool :=
  (suffixes s.data).any (fun t => needle.data.isPrefixOf t)

/-- Rust `str::starts_with(pre)`. -/
def strStartsWith (s pre : String) : Bool :=
  pre.data.isPrefixOf s.data

/-- ASCII lowercasing of a character list (Rust `eq_ignore_ascii_case`
compares the lowercased forms). -/
def toLowerList (cs : List Char) : List Char :=
  cs.map Char.toLower

/-- Rust `str::replace(' ', "-")`: every space becomes a hyphen. -/
def replaceSpaceWithDash (s : String) : String :=
  ⟨s.data.map (fun c => if c = ' ' then '-' else c)⟩

/-! ### The lenient version parser and total order

Modelled from the spec: the version parsing and comparison used by
`VersionStatus::new` lives in the external `versions` crate (plus the
ordering facts called out by the repository's test suite), none of which
is present under the repository sources.  Following the specification's
description (section 4.4 and the design notes): a version string is cut
into dot-separated segments, each segment into alternating numeric and
alphabetic units; comparison is segment-wise numeric, a suffixed segment
orders below the clean release with the same numeric prefix, digits order
above letters, and — the documented quirk — an arbitrary alphanumeric
suffix (such as `PRE9H2`) orders above a recognized clean pre-release tag
(such as `RC3`).  Parsing never fails except on the empty string; an
unparseable string is replaced by the minimal default value. -/
inductive VUnit
  | num (n : Nat)
  | str (s : List Char)
deriving DecidableEq

/-- A dot-separated segment of a version: alternating units. -/
abbrev VChunk := List VUnit

/-- A parsed version: its list of segments. -/
abbrev VParsed := List VChunk

/-- A maximal run of digits or of non-digit characters. -/
inductive VRun
  | dig (cs : List Char)
  | alp (cs : List Char)
deriving DecidableEq

/-- Cut a character list into maximal digit / non-digit runs. -/
def charRuns : List Char → List VRun
  | [] => []
  | c :: cs =>
    match charRuns cs with
    | VRun.dig ds :: rs =>
      if c.isDigit then VRun.dig (c :: ds) :: rs
      else VRun.alp [c] :: VRun.dig ds :: rs
    | VRun.alp ls :: rs =>
      if c.isDigit then VRun.dig [c] :: VRun.alp ls :: rs
      else VRun.alp (c :: ls) :: rs
    | [] => if c.isDigit then [VRun.dig [c]] else [VRun.alp [c]]

/-- A run becomes a numeric or alphabetic unit. -/
def runToUnit : VRun → VUnit
  | VRun.dig cs => VUnit.num (digsToNat cs)
  | VRun.alp cs => VUnit.str cs

/-- Parse one dot-separated segment. -/
def chunkOfChars (cs : List Char) : VChunk :=
  (charRuns cs).map runToUnit

/-- Split a character list on the dots. -/
def splitDots : List Char → List (List Char)
  | [] => [[]]
  | c :: cs =>
    if c = '.' then [] :: splitDots cs
    else
      match splitDots cs with
      | [] => [[c]]
      | seg :: rest => (c :: seg) :: rest

/-- Modelled from the spec: the lenient parser.  Only the empty string is
unparseable; every other string yields its segment list. -/
def parseVersion (s : String) : Option VParsed :=
  if s.data.isEmpty then none
  else some ((splitDots s.data).map chunkOfChars)

/-- The minimal default value an unparseable string degrades to. -/
def defaultVersion : VParsed := []

/-- Parse, replacing an unparseable string by the minimal default
(Rust `Versioning::new(s).unwrap_or_default()`). -/
def parsedOrDefault (s : String) : VParsed :=
  (parseVersion s).getD defaultVersion

/-- Lexicographic comparison of character lists (case-folded by callers). -/
def cmpCharList : List Char → List Char → Ordering
  | [], [] => Ordering.eq
  | [], _ :: _ => Ordering.lt
  | _ :: _, [] => Ordering.gt
  | x :: xs, y :: ys =>
    match compare x.toNat y.toNat with
    | Ordering.eq => cmpCharList xs ys
    | o => o

/-- The recognized clean pre-release tag words. -/
def preTags : List (List Char) :=
  ["alpha", "beta", "rc", "pre", "snapshot", "dev"].map String.data

/-- Whether a word is a recognized pre-release tag (case-insensitively). -/
def isPreTag (cs : List Char) : Bool :=
  preTags.contains (toLowerList cs)

/-- Whether a suffix has the shape of a clean pre-release tag: a
recognized tag word, optionally followed by one number. -/
def cleanTagSuffix : VChunk → Bool
  | [VUnit.str t] => isPreTag t
  | [VUnit.str t, VUnit.num _] => isPreTag t
  | _ => false

/-- Modelled from the spec (the documented quirk): arbitrary alphanumeric
suffixes (class 1) sort above clean pre-release tags (class 0). -/
def suffixClass (u : VChunk) : Nat :=
  if cleanTagSuffix u then 0 else 1

/-- Unit comparison: numbers numerically, words case-folded
lexicographically, digits above letters. -/
def cmpUnit : VUnit → VUnit → Ordering
  | VUnit.num a, VUnit.num b => compare a b
  | VUnit.str a, VUnit.str b => cmpCharList (toLowerList a) (toLowerList b)
  | VUnit.num _, VUnit.str _ => Ordering.gt
  | VUnit.str _, VUnit.num _ => Ordering.lt

/-- Plain lexicographic comparison of unit lists. -/
def lexUnits : VChunk → VChunk → Ordering
  | [], [] => Ordering.eq
  | [], _ :: _ => Ordering.lt
  | _ :: _, [] => Ordering.gt
  | x :: xs, y :: ys =>
    match cmpUnit x y with
    | Ordering.eq => lexUnits xs ys
    | o => o

/-- Segment comparison: numeric head units compare numerically; a clean
segment orders above the same segment extended by a letter suffix; among
letter-led suffixes the suffix class decides first, then the units. -/
def cmpChunk : VChunk → VChunk → Ordering
  | [], [] => Ordering.eq
  | [], VUnit.num _ :: _ => Ordering.lt
  | [], VUnit.str _ :: _ => Ordering.gt
  | VUnit.num _ :: _, [] => Ordering.gt
  | VUnit.str _ :: _, [] => Ordering.lt
  | VUnit.num a :: xs, VUnit.num b :: ys =>
    match compare a b with
    | Ordering.eq => cmpChunk xs ys
    | o => o
  | VUnit.num _ :: _, VUnit.str _ :: _ => Ordering.gt
  | VUnit.str _ :: _, VUnit.num _ :: _ => Ordering.lt
  | VUnit.str a :: xs, VUnit.str b :: ys =>
    match compare (suffixClass (VUnit.str a :: xs)) (suffixClass (VUnit.str b :: ys)) with
    | Ordering.eq => lexUnits (VUnit.str a :: xs) (VUnit.str b :: ys)
    | o => o

/-- Version comparison: segment-wise, shorter segment lists order below
their extensions. -/
def cmpVersion : VParsed → VParsed → Ordering
  | [], [] => Ordering.eq
  | [], _ :: _ => Ordering.lt
  | _ :: _, [] => Ordering.gt
  | x :: xs, y :: ys =>
    match cmpChunk x y with
    | Ordering.eq => cmpVersion xs ys
    | o => o

/-! ### VersionStatus (crates/ore_monitor_common/src/lib.rs, module `version_status`) -/

/-- The status a local version can have compared to the remote one. -/
inductive VersionStatus
  | OutOfDate
  | UpToDate
  | Overdated
deriving DecidableEq

/-- Mapping from a comparison result to a status, as in the `match` of
`VersionStatus::new`. -/
def statusOfOrder : Ordering → VersionStatus
  | Ordering.lt => VersionStatus.OutOfDate
  | Ordering.eq => VersionStatus.UpToDate
  | Ordering.gt => VersionStatus.Overdated

/-- `VersionStatus::new(local, remote)`: parse both sides leniently with
`unwrap_or_default`, then order them. -/
def VersionStatus.new (localVersion remoteVersion : String) : VersionStatus :=
  match cmpVersion ((parseVersion localVersion).getD defaultVersion)
      ((parseVersion remoteVersion).getD defaultVersion) with
  | Ordering.lt => VersionStatus.OutOfDate
  | Ordering.eq => VersionStatus.UpToDate
  | Ordering.gt => VersionStatus.Overdated

/-! ### Local metadata records (crates/ore_monitor/src/lib.rs, module `ore_mod_info`) -/

/-- The normalized record both schemas converge into. -/
structure OreModInfo where
  modid : String
  name : String
  version : String
  major_api_version : Nat
deriving DecidableEq

/-- A partial representation of an `mcmod.info` file (legacy schema). -/
structure McModInfo where
  modid : String
  name : String
  version : String
  dependencies : List String
  required_mods : List String
deriving DecidableEq

/-- The root representation of an `mcmod.info`. -/
structure ModInfo where
  info : McModInfo
deriving DecidableEq

/-- `McModInfo::find_major_version(id, list)` (the `&self` receiver of the
Rust method is unused and therefore dropped): take the first entry that
starts with `id`, split it once on `@`, split the version part once on
`.`, and parse the leading segment as a `u32`. -/
def McModInfo.find_major_version (id : String) (list : List String) : Option Nat :=
  (((list.find? (fun s => strStartsWith s id)).bind
        (fun s => splitOnce '@' s)).bind
      (fun p => splitOnce '.' p.2)).bind
    (fun p => parseU32 p.1)

/-- `McModInfo::sponge_tag_version`: the dependencies list first, the
required-mods list as fallback, defaulting to `0`. -/
def McModInfo.sponge_tag_version (self : McModInfo) : Nat :=
  ((McModInfo.find_major_version "spongeapi" self.dependencies).or
      (McModInfo.find_major_version "spongeapi" self.required_mods)).getD 0

/-- One dependency entry of the modern schema. -/
structure PluginDependency where
  id : String
  version : String
deriving DecidableEq

/-- `PluginDependency::is_sponge_dep`: ASCII-case-insensitive equality
with `"spongeapi"`. -/
def PluginDependency.is_sponge_dep (self : PluginDependency) : Bool :=
  toLowerList self.id.data == "spongeapi".data

/-- `PluginDependency::major_api_version`: leading dot segment of the
version, parsed as `u32`, defaulting to `0`. -/
def PluginDependency.major_api_version (self : PluginDependency) : Nat :=
  ((splitOnce '.' self.version).bind (fun p => parseU32 p.1)).getD 0

/-- The `global` section of a `sponge_plugins.json`. -/
structure GlobalPlugin where
  version : String
  dependencies : List PluginDependency
deriving DecidableEq

/-- One entry of the `plugins` array of a `sponge_plugins.json`. -/
structure PluginData where
  id : String
  name : String
  version : Option String
  dependencies : List PluginDependency
deriving DecidableEq

/-- Rust `PluginData::default()`: empty strings, no version, no deps. -/
def PluginData.default : PluginData :=
  { id := "", name := "", version := none, dependencies := [] }

/-- The root representation of a `sponge_plugins.json` (modern schema). -/
structure PluginInfo where
  global : Option GlobalPlugin
  plugins : List PluginData
deriving DecidableEq

/-- `PluginInfo::first_plugin`: the first entry of `plugins`, or the
default record when the list is empty. -/
def PluginInfo.first_plugin (self : PluginInfo) : PluginData :=
  self.plugins.head?.getD PluginData.default

/-- `PluginInfo::major_api_version`: the `global` dependency list if
present, else the first plugin's own; then the first sponge dependency's
major version, defaulting to `0`. -/
def PluginInfo.major_api_version (self : PluginInfo) : Nat :=
  (((((self.global.map (fun f => f.dependencies)).or
            (some self.first_plugin.dependencies)).getD []).filter
        (fun dep => dep.is_sponge_dep)).map
      (fun ver => ver.major_api_version)).head?.getD 0

/-- `impl From<McModInfo> for OreModInfo`. -/
def OreModInfo.ofMcModInfo (value : McModInfo) : OreModInfo :=
  { modid := value.modid
    name := value.name
    version := value.version
    major_api_version := value.sponge_tag_version }

/-- `impl From<ModInfo> for OreModInfo`. -/
def OreModInfo.ofModInfo (value : ModInfo) : OreModInfo :=
  OreModInfo.ofMcModInfo value.info

/-- `impl From<PluginInfo> for OreModInfo`: first plugin's identity, its
version with spaces replaced by hyphens (empty when absent), and the
computed major API version. -/
def OreModInfo.ofPluginInfo (value : PluginInfo) : OreModInfo :=
  { modid := value.first_plugin.id
    name := value.first_plugin.name
    version := replaceSpaceWithDash (value.first_plugin.version.getD "")
    major_api_version := value.major_api_version }

/-! ### Archive extraction (crates/ore_monitor/src/lib.rs, module `file_reader`)

The archive-reading collaborator is embedded as the parse results of the
two candidate metadata entries: `none` stands for an entry that is absent
or fails to deserialize (the Rust side's `Err` cases of `find_file`). -/

/-- The two metadata entries of an opened jar archive, as parse results. -/
structure JarArchive where
  mcmod_info : Option ModInfo
  sponge_plugins : Option PluginInfo

/-- The two supported metadata file formats. -/
inductive FileTypes
  | InfoFile
  | PluginFile

/-- `FileTypes::try_get`: deserialize the corresponding entry and convert
it into the normalized record. -/
def FileTypes.try_get : FileTypes → JarArchive → Option OreModInfo
  | FileTypes.InfoFile, a => a.mcmod_info.map OreModInfo.ofModInfo
  | FileTypes.PluginFile, a => a.sponge_plugins.map OreModInfo.ofPluginInfo

/-- `FileReader::handle_file` (the pure core, after the archive has been
opened): the legacy schema first, the modern schema on failure. -/
def FileReader.handle_file (a : JarArchive) : Option OreModInfo :=
  (FileTypes.try_get FileTypes.InfoFile a).or (FileTypes.try_get FileTypes.PluginFile a)

/-! ### Remote promoted versions (crates/ore_monitor/src/sponge_schemas.rs) -/

/-- Display colors of a version tag (carried along, not inspected). -/
structure VersionTagColor where
  foreground : String
  background : String
deriving DecidableEq

/-- One tag of a remote promoted version. -/
structure PromotedVersionTag where
  name : String
  data : Option String
  display_data : Option String
  minecraft_version : Option String
  color : VersionTagColor
deriving DecidableEq

/-- One entry of a remote project's promoted-version list. -/
structure PromotedVersion where
  version : String
  tags : List PromotedVersionTag
deriving DecidableEq

/-- A remote project.  Of the Rust struct's fields only
`promoted_versions` is embedded: it is the only one `version_from_tag`
reads. -/
structure Project where
  promoted_versions : List PromotedVersion
deriving DecidableEq

/-- The tagged major version of one promoted version, as computed inside
`Project::version_from_tag`: the first tag whose name contains
`"Sponge"`, its `display_data`, split once on `.`, leading segment parsed
as `u32` with `unwrap_or_default`, all defaulting to `0`. -/
def promotedTagMajor (f : PromotedVersion) : Nat :=
  ((((f.tags.find? (fun p => strHasInfix "Sponge" p.name)).bind
          (fun t => t.display_data)).bind
        (fun d => splitOnce '.' d)).map
      (fun p => (parseU32 p.1).getD 0)).getD 0

/-- `Project::version_from_tag(major_version)`: pair every promoted
version with its tagged major, then return the first pair whose tag
equals the target, defaulting to the empty string. -/
def Project.version_from_tag (self : Project) (major_version : Nat) : String :=
  let available_tags := self.promoted_versions.map (fun f => (f.version, promotedTagMajor f))
  (((available_tags.find? (fun p => p.2 == major_version)).map (fun f => f.1)).getD "")

/-- The matcher as the specification words it: return the version label
of the first promoted version (in list order) whose computed tagged major
equals the target exactly; the empty string when none matches. -/
def specVersionFromTag (proj : Project) (major : Nat) : String :=
  match proj.promoted_versions.find? (fun pv => promotedTagMajor pv == major) with
  | some pv => pv.version
  | none => ""

/-! ### The reporting record (crates/ore_monitor/src/commands.rs) -/

/-- The per-plugin comparison record built by the check command. -/
structure VersionDisplay where
  id : String
  local_version : String
  remote_version : String
  status : VersionStatus

/-- `VersionDisplay::new((local, remote))`: select the remote version by
the local major API tag, then compare the two version strings. -/
def VersionDisplay.new (vers : OreModInfo × Project) : VersionDisplay :=
  { id := vers.1.modid
    local_version := vers.1.version
    remote_version := vers.2.version_from_tag vers.1.major_api_version
    status := VersionStatus.new vers.1.version (vers.2.version_from_tag vers.1.major_api_version) }

/-! ### Helper lemmas -/

/-- Splitting on dots never yields an empty segment list. -/
lemma splitDots_ne_nil (cs : List Char) : splitDots cs ≠ [] := by
  induction cs with
  | nil => simp [splitDots]
  | cons c cs ih =>
    simp only [splitDots]
    by_cases h : c = '.'
    · simp [h]
    · simp only [if_neg h]
      cases hs : splitDots cs with
      | nil => simp
      | cons seg rest => simp

/-- A successfully parsed version is never the empty segment list. -/
lemma parseVersion_ne_nil {s : String} {v : VParsed} (h : parseVersion s = some v) :
    v ≠ [] := by
  intro hv
  subst hv
  unfold parseVersion at h
  split at h
  · exact Option.noConfusion h
  · have hmap := Option.some_inj.mp h
    cases hsd : splitDots s.data with
    | nil => exact splitDots_ne_nil s.data hsd
    | cons a t =>
      rw [hsd] at hmap
      exact List.noConfusion hmap

/-- Reading the lenient parse through its defaulted form. -/
lemma getD_eq_parsedOrDefault (s : String) :
    (parseVersion s).getD defaultVersion = parsedOrDefault s := rfl

/-- `VersionStatus.new` is the status of the comparison of the two
leniently parsed sides. -/
lemma new_eq_statusOfOrder (a b : String) :
    VersionStatus.new a b =
      statusOfOrder (cmpVersion (parsedOrDefault a) (parsedOrDefault b)) := by
  unfold VersionStatus.new
  rw [getD_eq_parsedOrDefault, getD_eq_parsedOrDefault]
  cases cmpVersion (parsedOrDefault a) (parsedOrDefault b) <;> rfl

/-- Pairing with the computed tag commutes with the first-match search. -/
lemma find?_map_pair (l : List PromotedVersion) (major : Nat) :
    (l.map (fun f => (f.version, promotedTagMajor f))).find? (fun p => p.2 == major)
      = (l.find? (fun pv => promotedTagMajor pv == major)).map
          (fun pv => (pv.version, promotedTagMajor pv)) := by
  induction l with
  | nil => rfl
  | cons x xs ih =>
    simp only [List.map_cons, List.find?]
    cases hx : (promotedTagMajor x == major) with
    | true => rfl
    | false => exact ih

/-! ### The claims -/

/-- C1: `VersionStatus.new` produces exactly one of the three statuses for
every pair of version strings, determined by the order of the parsed
versions — `OutOfDate` iff local < remote, `UpToDate` iff local = remote,
`Overdated` iff local > remote — and on the concrete pairs,
`new "2.0" "2.0" = UpToDate`, `new "1.0" "2.0" = OutOfDate`,
`new "2.0" "1.0" = Overdated`. -/
theorem C1_comparator_trichotomy :
    (∀ localVersion remoteVersion : String,
      (VersionStatus.new localVersion remoteVersion = VersionStatus.OutOfDate ↔
        cmpVersion (parsedOrDefault localVersion) (parsedOrDefault remoteVersion) =
          Ordering.lt) ∧
      (VersionStatus.new localVersion remoteVersion = VersionStatus.UpToDate ↔
        cmpVersion (parsedOrDefault localVersion) (parsedOrDefault remoteVersion) =
          Ordering.eq) ∧
      (VersionStatus.new localVersion remoteVersion = VersionStatus.Overdated ↔
        cmpVersion (parsedOrDefault localVersion) (parsedOrDefault remoteVersion) =
          Ordering.gt)) ∧
    VersionStatus.new "2.0" "2.0" = VersionStatus.UpToDate ∧
    VersionStatus.new "1.0" "2.0" = VersionStatus.OutOfDate ∧
    VersionStatus.new "2.0" "1.0" = VersionStatus.Overdated := by
  refine ⟨fun lv rv => ?_, by decide, by decide, by decide⟩
  rw [new_eq_statusOfOrder]
  cases cmpVersion (parsedOrDefault lv) (parsedOrDefault rv) <;> decide

/-- C2: `Project.version_from_tag` returns the version label of the first
promoted version, in list order, whose computed tagged major equals the
target exactly, and the empty string when none matches; on the sample
list the target `7` selects `"2.0"` and the target `9` selects `""`. -/
theorem C2_remote_matcher :
    (∀ (proj : Project) (major : Nat),
        proj.version_from_tag major = specVersionFromTag proj major) ∧
    Project.version_from_tag
        ⟨[⟨"1.0", [⟨"Sponge API", none, some "6.2", none, ⟨"", ""⟩⟩]⟩,
          ⟨"2.0", [⟨"Sponge API", none, some "7.3", none, ⟨"", ""⟩⟩]⟩]⟩ 7 = "2.0" ∧
    Project.version_from_tag
        ⟨[⟨"1.0", [⟨"Sponge API", none, some "6.2", none, ⟨"", ""⟩⟩]⟩,
          ⟨"2.0", [⟨"Sponge API", none, some "7.3", none, ⟨"", ""⟩⟩]⟩]⟩ 9 = "" := by
  refine ⟨fun proj major => ?_, by decide, by decide⟩
  simp only [Project.version_from_tag, specVersionFromTag, find?_map_pair]
  cases hf : proj.promoted_versions.find? (fun pv => promotedTagMajor pv == major) <;>
    simp [hf]

/-- C3 counterexample: on `["spongeapi@SNAPSHOT", "spongeapi@7.1.0"]` the
resolver does not return `7` — it stops at the first id match, whose
version is unparseable, and yields nothing. -/
theorem C3_counterexample :
    McModInfo.find_major_version "spongeapi" ["spongeapi@SNAPSHOT", "spongeapi@7.1.0"]
        = none ∧
    McModInfo.find_major_version "spongeapi" ["spongeapi@SNAPSHOT", "spongeapi@7.1.0"]
        ≠ some 7 := by
  decide

/-- C3 (amended): the resolver parses only the first entry whose id
matches; when that entry's version segment is unparseable the whole list
yields nothing — later parseable candidates are never reached.  In
particular `["spongeapi@SNAPSHOT", "spongeapi@7.1.0"]` yields `none`. -/
theorem C3_amended_first_id_match_only :
    (∀ (id : String) (list : List String) (s : String),
      list.find? (fun x => strStartsWith x id) = some s →
      ((splitOnce '@' s).bind (fun p => splitOnce '.' p.2)).bind
          (fun p => parseU32 p.1) = none →
      McModInfo.find_major_version id list = none) ∧
    McModInfo.find_major_version "spongeapi" ["spongeapi@SNAPSHOT", "spongeapi@7.1.0"]
        = none := by
  constructor
  · intro id list s hfind hparse
    unfold McModInfo.find_major_version
    rw [hfind]
    exact hparse
  · decide

/-- C3 witness: the amended statement applied to the concrete list. -/
theorem C3_witness :
    McModInfo.find_major_version "spongeapi" ["spongeapi@SNAPSHOT", "spongeapi@7.1.0"]
        = none :=
  C3_amended_first_id_match_only.1 "spongeapi"
    ["spongeapi@SNAPSHOT", "spongeapi@7.1.0"] "spongeapi@SNAPSHOT"
    (by decide) (by decide)

/-- C4 counterexample: with both lists exhausted without a parseable
major version, `sponge_tag_version` still produces a major version value,
namely `0` — no failure occurs. -/
theorem C4_counterexample :
    McModInfo.find_major_version "spongeapi" ["spongeapi@SNAPSHOT"] = none ∧
    McModInfo.find_major_version "spongeapi" ["otherlib@2.0"] = none ∧
    McModInfo.sponge_tag_version
        ⟨"examplemod", "Example", "1.0", ["spongeapi@SNAPSHOT"], ["otherlib@2.0"]⟩
      = 0 := by
  decide

/-- C4 (amended): when the dependencies list and the required-mods list
both yield no parseable platform major version, `sponge_tag_version`
returns the default value `0` instead of failing with an error. -/
theorem C4_amended_defaults_to_zero :
    ∀ m : McModInfo,
      McModInfo.find_major_version "spongeapi" m.dependencies = none →
      McModInfo.find_major_version "spongeapi" m.required_mods = none →
      m.sponge_tag_version = 0 := by
  intro m h1 h2
  unfold McModInfo.sponge_tag_version
  rw [h1, h2]
  rfl

/-- C4 witness: the amended statement applied to a concrete record whose
two lists are exhausted. -/
theorem C4_witness :
    McModInfo.sponge_tag_version
        ⟨"examplemod", "Example", "1.0", ["spongeapi@SNAPSHOT"], ["otherlib@2.0"]⟩
      = 0 :=
  C4_amended_defaults_to_zero
    ⟨"examplemod", "Example", "1.0", ["spongeapi@SNAPSHOT"], ["otherlib@2.0"]⟩
    (by decide) (by decide)

/-- C5 counterexample: extraction can succeed with an empty `modid` and
an empty `version` — the archive holding a modern metadata file with an
empty plugins array extracts to the all-empty default record. -/
theorem C5_counterexample :
    ¬ (∀ (a : JarArchive) (r : OreModInfo),
        FileReader.handle_file a = some r → r.modid ≠ "" ∧ r.version ≠ "") := by
  intro h
  exact (h ⟨none, some ⟨none, []⟩⟩ ⟨"", "", "", 0⟩ (by decide)).1 rfl

/-- C5 (amended): successful extraction guarantees nothing about the
emptiness of `modid` or `version`; extraction fails exactly when neither
metadata file is present and parseable. -/
theorem C5_amended_success_iff_some_schema :
    ∀ a : JarArchive,
      FileReader.handle_file a = none ↔
        a.mcmod_info = none ∧ a.sponge_plugins = none := by
  intro a
  obtain ⟨mi, sp⟩ := a
  cases mi <;> cases sp <;>
    simp [FileReader.handle_file, FileTypes.try_get, Option.or]

/-- C6: the legacy resolver consults the dependencies list first and
falls back to the required-mods list only when the dependencies list
produced nothing; a record with an unparseable dependencies entry and
`"spongeapi@7.3"` among its required mods resolves to `7`. -/
theorem C6_fallback_ordering :
    (∀ (m : McModInfo) (v : Nat),
      (McModInfo.find_major_version "spongeapi" m.dependencies = some v →
        m.sponge_tag_version = v) ∧
      (McModInfo.find_major_version "spongeapi" m.dependencies = none →
        m.sponge_tag_version =
          (McModInfo.find_major_version "spongeapi" m.required_mods).getD 0)) ∧
    McModInfo.sponge_tag_version
        ⟨"examplemod", "Example", "1.0", ["spongeapi@SNAPSHOT"], ["spongeapi@7.3"]⟩
      = 7 := by
  refine ⟨fun m v => ⟨fun h => ?_, fun h => ?_⟩, by decide⟩
  · unfold McModInfo.sponge_tag_version
    rw [h]
    rfl
  · unfold McModInfo.sponge_tag_version
    rw [h]
    rfl

/-- C6 witness: the dependencies-first branch applied to a concrete
record whose dependencies list parses to `7`. -/
theorem C6_witness :
    McModInfo.sponge_tag_version
        ⟨"examplemod", "Example", "1.0", ["spongeapi@7.3"], []⟩ = 7 :=
  (C6_fallback_ordering.1 ⟨"examplemod", "Example", "1.0", ["spongeapi@7.3"], []⟩ 7).1
    (by decide)

/-- C7: the suffixed version `2.0.0PRE9H2` orders strictly above
`2.0.0RC3`, so the comparison reports `Overdated`. -/
theorem C7_prerelease_quirk :
    VersionStatus.new "2.0.0PRE9H2" "2.0.0RC3" = VersionStatus.Overdated := by
  decide

/-- C8: a modern-schema metadata file with an empty plugins array and no
global section extracts, without failing, to the record with empty
`modid`, empty `name`, empty `version` and major API version `0`. -/
theorem C8_modern_schema_empty_default :
    OreModInfo.ofPluginInfo ⟨none, []⟩ = ⟨"", "", "", 0⟩ ∧
    FileReader.handle_file ⟨none, some ⟨none, []⟩⟩ = some ⟨"", "", "", 0⟩ := by
  decide

/-- C9: the comparator is total — for every pair of input strings it
returns one of the three statuses — and an unparseable input string on
either side is replaced by the minimal default version value before the
comparison. -/
theorem C9_comparator_total :
    ∀ localVersion remoteVersion : String,
      (VersionStatus.new localVersion remoteVersion = VersionStatus.OutOfDate ∨
        VersionStatus.new localVersion remoteVersion = VersionStatus.UpToDate ∨
        VersionStatus.new localVersion remoteVersion = VersionStatus.Overdated) ∧
      (parseVersion localVersion = none →
        VersionStatus.new localVersion remoteVersion =
          statusOfOrder (cmpVersion defaultVersion (parsedOrDefault remoteVersion))) ∧
      (parseVersion remoteVersion = none →
        VersionStatus.new localVersion remoteVersion =
          statusOfOrder (cmpVersion (parsedOrDefault localVersion) defaultVersion)) := by
  intro lv rv
  refine ⟨?_, fun hl => ?_, fun hr => ?_⟩
  · rw [new_eq_statusOfOrder]
    cases cmpVersion (parsedOrDefault lv) (parsedOrDefault rv) <;> decide
  · rw [new_eq_statusOfOrder]
    have : parsedOrDefault lv = defaultVersion := by simp [parsedOrDefault, hl]
    rw [this]
  · rw [new_eq_statusOfOrder]
    have : parsedOrDefault rv = defaultVersion := by simp [parsedOrDefault, hr]
    rw [this]

/-- C9 witness: the default-substitution branch applied to the
unparseable empty string on the local side. -/
theorem C9_witness :
    VersionStatus.new "" "1.0" =
      statusOfOrder (cmpVersion defaultVersion (parsedOrDefault "1.0")) :=
  (C9_comparator_total "" "1.0").2.1 (by decide)

/-- C10: when the remote matcher's empty-string sentinel reaches the
comparator as the remote side, the empty string does not parse and is
treated as the minimal default, so every local version that parses to a
value above the default is reported as the ordinary `Overdated` status;
in particular `new "1.0" "" = Overdated`. -/
theorem C10_empty_sentinel_reports_overdated :
    (∀ (info : OreModInfo) (proj : Project) (v : VParsed),
      proj.version_from_tag info.major_api_version = "" →
      parseVersion info.version = some v →
      cmpVersion defaultVersion v = Ordering.lt →
      (VersionDisplay.new (info, proj)).status = VersionStatus.Overdated) ∧
    VersionStatus.new "1.0" "" = VersionStatus.Overdated := by
  constructor
  · intro info proj v hsent hparse hlt
    have hvne : v ≠ [] := parseVersion_ne_nil hparse
    have hgt : cmpVersion v defaultVersion = Ordering.gt := by
      cases v with
      | nil => exact absurd rfl hvne
      | cons c cs => rfl
    calc (VersionDisplay.new (info, proj)).status
        = VersionStatus.new info.version (proj.version_from_tag info.major_api_version) :=
          rfl
      _ = VersionStatus.new info.version "" := by rw [hsent]
      _ = statusOfOrder (cmpVersion (parsedOrDefault info.version) (parsedOrDefault "")) :=
          new_eq_statusOfOrder _ _
      _ = statusOfOrder (cmpVersion v defaultVersion) := by
          rw [show parsedOrDefault info.version = v by simp [parsedOrDefault, hparse],
            show parsedOrDefault "" = defaultVersion by decide]
      _ = VersionStatus.Overdated := by rw [hgt]; rfl
  · decide

/-- C10 witness: a project with no promoted versions produces the empty
sentinel, and a local version `1.0` is then reported `Overdated`. -/
theorem C10_witness :
    (VersionDisplay.new (⟨"nucleus", "Nucleus", "1.0", 7⟩, ⟨[]⟩)).status =
      VersionStatus.Overdated :=
  C10_empty_sentinel_reports_overdated.1 ⟨"nucleus", "Nucleus", "1.0", 7⟩ ⟨[]⟩
    [[VUnit.num 1], [VUnit.num 0]] (by decide) (by decide) (by decide)

end OreMonitor
